import Mathlib

/-!
Verification development for the `pdf_rename.py` batch-renaming script.

The Python source is shallowly embedded: Python strings become `List Char`,
byte strings become `List Nat`, fallible operations return `Option` or
`Except PyErr`, and each embedded definition mirrors one function (or one
inline block) of the source file, keeping the source's names where Lean
allows it.
-/

namespace PdfRename

/-- Python strings are modelled as lists of characters. -/
abbrev Str := List Char

/-- Python runtime errors that the embedded code can raise. -/
inductive PyErr where
  | attributeError
  | indexError
  | typeError
  | valueError
  | unicodeDecodeError
  deriving DecidableEq, Repr

/-- Characters stripped by Python's `str.strip()` with no argument. -/
def pyIsSpace (c : Char) : Bool :=
  c = ' ' || c = '\t' || c = '\n' || c = '\r' || c = '\x0b' || c = '\x0c'

/-- Python `s.strip()`: drop leading and trailing whitespace. -/
def pyStrip (s : Str) : Str :=
  ((s.dropWhile pyIsSpace).reverse.dropWhile pyIsSpace).reverse

/-- Python `str.lower()` on one character (ASCII range, the range the
claims exercise). -/
def pyLowerChar (c : Char) : Char :=
  if c.isUpper then Char.ofNat (c.toNat + 32) else c

/-- Python `s.lower()`. -/
def pyLower (s : Str) : Str := s.map pyLowerChar

/-- Python `s.replace(":", "")`: removing every occurrence of the
one-character pattern is filtering it out. -/
def pyRemoveColon (s : Str) : Str := s.filter (fun c => c ≠ ':')

/-- Python `s.split(sep)` with a one-character separator: keeps empty
segments between adjacent separators. -/
def pySplitChar (sep : Char) : Str → List Str
  | [] => [[]]
  | c :: rest =>
    match pySplitChar sep rest with
    | [] => [[c]]
    | p :: ps => if c = sep then [] :: p :: ps else (c :: p) :: ps

/-- Python `sep.join(parts)`. -/
def joinWith (sep : Str) : List Str → Str
  | [] => []
  | [s] => s
  | s :: rest => s ++ sep ++ joinWith sep rest

/-- Accumulator loop behind `pySplitWs`. -/
def splitWsAux : Str → Str → List Str
  | [], acc => if acc.isEmpty then [] else [acc.reverse]
  | c :: rest, acc =>
    if pyIsSpace c then
      if acc.isEmpty then splitWsAux rest []
      else acc.reverse :: splitWsAux rest []
    else splitWsAux rest (c :: acc)

/-- Python `s.split()` with no argument: split on whitespace runs,
discarding empty tokens. -/
def pySplitWs (s : Str) : List Str := splitWsAux s []

/-- Python truthiness of an optional string (`None` and `""` are falsy). -/
def pyTruthy : Option Str → Bool
  | none => false
  | some s => !s.isEmpty

/-- Characters kept by `_sanitize` besides alphanumerics
(`keep` list, line 110 of the source; the last entry is the em-dash). -/
def keepChars : List Char := [' ', '.', '_', '-', '—']

/-- Source `_sanitize` (lines 109-111): keep only characters from the keep
list or alphanumerics, then strip surrounding whitespace. -/
def _sanitize (s : Str) : Str :=
  pyStrip (s.filter (fun c => keepChars.contains c || c.isAlphanum))

/-- Source `_au_last_name` (lines 130-131): `name.split()[-1]`.
Indexing `[-1]` on an empty list raises `IndexError`, modelled as `none`. -/
def _au_last_name (name : Str) : Option Str :=
  (pySplitWs name).getLast?

/-- Source `_new_filename` (lines 216-225). The sanitized title is computed
and then shadowed by the dash-join of the unsanitized title, exactly as in
the source. -/
def _new_filename (title : Str) (author : Option Str) : Str :=
  let title := pyRemoveColon (pyLower title)
  let n := _sanitize title
  let n := joinWith ['-'] (pySplitChar ' ' (pyStrip title))
  let n := match author with
    | none => n
    | some author =>
      let author := pyLower author
      pyLower (_sanitize author) ++ '.' :: n
  n.take 250 ++ ['.', 'p', 'd', 'f']

/-- Strict UTF-8 decoding of a byte string, as Python's `bytes.decode("utf-8")`:
rejects stray continuation bytes, overlong forms, surrogates and values above
U+10FFFF. `none` models `UnicodeDecodeError`. -/
def utf8Decode : List Nat → Option Str
  | [] => some []
  | b :: bs =>
    if b ≤ 0x7F then (utf8Decode bs).map (fun r => Char.ofNat b :: r)
    else if 0xC2 ≤ b && b ≤ 0xDF then
      match bs with
      | b1 :: bs2 =>
        if 0x80 ≤ b1 && b1 ≤ 0xBF then
          (utf8Decode bs2).map (fun r => Char.ofNat ((b - 0xC0) * 64 + (b1 - 0x80)) :: r)
        else none
      | [] => none
    else if 0xE0 ≤ b && b ≤ 0xEF then
      match bs with
      | b1 :: b2 :: bs3 =>
        let lo1 := if b = 0xE0 then 0xA0 else 0x80
        let hi1 := if b = 0xED then 0x9F else 0xBF
        if (lo1 ≤ b1 && b1 ≤ hi1) && (0x80 ≤ b2 && b2 ≤ 0xBF) then
          (utf8Decode bs3).map
            (fun r => Char.ofNat ((b - 0xE0) * 4096 + (b1 - 0x80) * 64 + (b2 - 0x80)) :: r)
        else none
      | _ => none
    else if 0xF0 ≤ b && b ≤ 0xF4 then
      match bs with
      | b1 :: b2 :: b3 :: bs4 =>
        let lo1 := if b = 0xF0 then 0x90 else 0x80
        let hi1 := if b = 0xF4 then 0x8F else 0xBF
        if (lo1 ≤ b1 && b1 ≤ hi1) && (0x80 ≤ b2 && b2 ≤ 0xBF) && (0x80 ≤ b3 && b3 ≤ 0xBF) then
          (utf8Decode bs4).map
            (fun r => Char.ofNat
              ((b - 0xF0) * 262144 + (b1 - 0x80) * 4096 + (b2 - 0x80) * 64 + (b3 - 0x80)) :: r)
        else none
      | _ => none
    else none

/-- ASCII encoding of a text, used to build concrete byte-string inputs. -/
def asciiBytes (s : String) : List Nat := s.data.map Char.toNat

/-- Lookup in an association list by key, as Python `d[k]`
(`none` models `KeyError`) and `k in d`. -/
def dictGet {κ ν : Type} [BEq κ] (d : List (κ × ν)) (k : κ) : Option ν :=
  (d.find? (fun p => p.1 == k)).map Prod.snd

/-- Python `d[k] = v` on an insertion-ordered dictionary: update in place
when the key exists, append otherwise. -/
def assocPut {κ ν : Type} [BEq κ] (m : List (κ × ν)) (k : κ) (v : ν) : List (κ × ν) :=
  match m with
  | [] => [(k, v)]
  | (k1, v1) :: rest => if k1 == k then (k, v) :: rest else (k1, v1) :: assocPut rest k v

/-- PDF object values occurring in a document-info dictionary: a text
string, a raw byte string, or an indirect reference (an object exposing a
`resolve` method that yields its target). -/
inductive PdfObj where
  | str (s : Str)
  | bytes (bs : List Nat)
  | ref (target : PdfObj)
  deriving DecidableEq, Repr

/-- Source `_resolve_objref` (lines 125-128): objects with a `resolve`
attribute are dereferenced, everything else is returned unchanged. -/
def _resolve_objref : PdfObj → PdfObj
  | .ref target => target
  | v => v

/-- Python `value.decode("utf-8")`: only byte strings have a `decode`
attribute; text strings and references raise `AttributeError`. -/
def pyDecodeUtf8 : PdfObj → Except PyErr Str
  | .bytes bs =>
    match utf8Decode bs with
    | some s => .ok s
    | none => .error .unicodeDecodeError
  | _ => .error .attributeError

/-- An element of the XML tree produced by `xml.etree.ElementTree`:
namespace-qualified tag, attributes, direct text, child elements. -/
inductive XmlNode where
  | elem (tag : Str) (attrs : List (Str × Str)) (text : Option Str) (children : List XmlNode)

def XmlNode.tag : XmlNode → Str
  | .elem t _ _ _ => t

def XmlNode.attrs : XmlNode → List (Str × Str)
  | .elem _ a _ _ => a

def XmlNode.text : XmlNode → Option Str
  | .elem _ _ t _ => t

def XmlNode.children : XmlNode → List XmlNode
  | .elem _ _ _ c => c

/-- Outcome of `ET.XML` on the raw packet bytes: a parsed root element, or
a parse failure for input that is not well-formed XML. -/
inductive Xml where
  | malformed
  | root (el : XmlNode)

/-- Element.find: first direct child with the given tag. -/
def findChild (el : XmlNode) (t : Str) : Option XmlNode :=
  el.children.find? (fun c => c.tag == t)

/-- Element.findall with a single tag: all direct children with that tag. -/
def findAll (el : XmlNode) (t : Str) : List XmlNode :=
  (el.children.filter (fun c => c.tag == t))

/-- Element.findall with a two-step path `t1/t2`. -/
def findAllPath (el : XmlNode) (t1 t2 : Str) : List XmlNode :=
  ((findAll el t1).map (fun c => findAll c t2)).flatten

/-- Element.get: attribute lookup returning `None` when absent. -/
def XmlNode.get (el : XmlNode) (k : Str) : Option Str :=
  dictGet el.attrs k

/-- Build a namespace-qualified ElementTree tag `\x7buri\x7dlocal`. -/
def qualTag (uri loc : Str) : Str := '\x7b' :: uri ++ '\x7d' :: loc

/-- Namespace URI behind `RDF_NS` (line 38). -/
def rdfURI : Str := ("http://www.w3.org/1999/02/22-rdf-syntax-ns#").data

/-- Namespace URI behind `XML_NS` (line 39). -/
def xmlURI : Str := ("http://www.w3.org/XML/1998/namespace").data

/-- Source `NS_MAP` (lines 40-51): the recognized namespace URIs and their
short aliases. -/
def NS_MAP : List (Str × Str) :=
  [ (rdfURI, ("rdf").data),
    (("http://purl.org/dc/elements/1.1/").data, ("dc").data),
    (("http://ns.adobe.com/xap/1.0/").data, ("xap").data),
    (("http://ns.adobe.com/pdf/1.3/").data, ("pdf").data),
    (("http://ns.adobe.com/xap/1.0/mm/").data, ("xapmm").data),
    (("http://ns.adobe.com/pdfx/1.3/").data, ("pdfx").data),
    (("http://prismstandard.org/namespaces/basic/2.0/").data, ("prism").data),
    (("http://crossref.org/crossmark/1.0/").data, ("crossmark").data),
    (("http://ns.adobe.com/xap/1.0/rights/").data, ("rights").data),
    (xmlURI, ("xml").data) ]

/-- Python `s.split(sep, 1)` for a one-character separator, reduced to the
part before and after the first occurrence; `none` when the separator does
not occur (so tuple unpacking of the one-element result raises
`ValueError`). -/
def splitOnceAt (sep : Char) : Str → Option (Str × Str)
  | [] => none
  | c :: rest =>
    if c = sep then some ([], rest)
    else (splitOnceAt sep rest).map (fun p => (c :: p.1, p.2))

/-- Source `XmpParser._parse_tag` (lines 76-84): split a qualified tag into
namespace key and local name, mapping recognized URIs to their alias. A tag
not starting with a brace keeps namespace `None`. -/
def _parse_tag (tag : Str) : Except PyErr (Option Str × Str) :=
  match tag with
  | [] => .error .indexError
  | c :: rest =>
    if c = '\x7b' then
      match splitOnceAt '\x7d' rest with
      | none => .error .valueError
      | some (ns, t) => .ok (some ((dictGet NS_MAP ns).getD ns), t)
    else .ok (none, tag)

/-- Values stored by the XMP parser: plain element text (possibly `None`),
a Bag/Seq list of `li` texts, or an Alt dictionary from `xml:lang`
attribute to `li` text. -/
inductive XmpValue where
  | text (t : Option Str)
  | list (xs : List (Option Str))
  | alt (m : List (Option Str × Option Str))
  deriving DecidableEq, Repr

def bagTag : Str := qualTag rdfURI ("Bag").data
def seqTag : Str := qualTag rdfURI ("Seq").data
def altTag : Str := qualTag rdfURI ("Alt").data
def liTag : Str := qualTag rdfURI ("li").data
def langAttr : Str := qualTag xmlURI ("lang").data
def rdfTag : Str := qualTag rdfURI ("RDF").data
def descTag : Str := qualTag rdfURI ("Description").data

/-- Source `XmpParser._parse_value` (lines 86-102): Bag, then Seq, then
Alt container shapes, falling back to the element's own text. -/
def _parse_value (el : XmlNode) : XmpValue :=
  if (findChild el bagTag).isSome then
    .list ((findAllPath el bagTag liTag).map XmlNode.text)
  else if (findChild el seqTag).isSome then
    .list ((findAllPath el seqTag liTag).map XmlNode.text)
  else if (findChild el altTag).isSome then
    .alt ((findAllPath el altTag liTag).foldl
      (fun m li => assocPut m (li.get langAttr) li.text) [])
  else .text el.text

/-- The parsed metadata: namespace key (alias, URI, or `None`) to tag to
value. -/
abbrev XmpMeta := List (Option Str × List (Str × XmpValue))

/-- One `meta[ns][tag] = value` store into the defaultdict of dicts. -/
def metaPut (m : XmpMeta) (ns : Option Str) (tag : Str) (v : XmpValue) : XmpMeta :=
  match m with
  | [] => [(ns, [(tag, v)])]
  | (ns1, tags) :: rest =>
    if ns1 == ns then (ns1, assocPut tags tag v) :: rest
    else (ns1, tags) :: metaPut rest ns tag v

/-- Inner loop of `XmpParser.meta` (lines 70-73) over the children of one
Description element. -/
def parseDesc (m : XmpMeta) (desc : XmlNode) : Except PyErr XmpMeta :=
  desc.children.foldlM
    (fun acc el => do
      let (ns, tag) ← _parse_tag el.tag
      Except.ok (metaPut acc ns tag (_parse_value el))) m

/-- Source `xmp_to_dict` = `XmpParser(xmp).meta` (lines 61-74, 104-106):
parse the XML, locate the RDF root, and fold every Description child into
the metadata dictionary. A malformed packet fails at `ET.XML`; a packet
without an RDF element fails when `None.findall` is called. -/
def xmp_to_dict (x : Xml) : Except PyErr XmpMeta := do
  let tree ← match x with
    | .malformed => Except.error .valueError
    | .root el => Except.ok el
  let some rdftree := findChild tree rdfTag
    | Except.error .attributeError
  (findAll rdftree descTag).foldlM parseDesc []

/-- Python `list(filter(bool, xs))` over entries that are `None` or
strings: drop `None` and empty strings. -/
def truthyList (xs : List (Option Str)) : List Str :=
  xs.filterMap (fun o =>
    match o with
    | none => none
    | some s => if s.isEmpty then none else some s)

/-- Normalization of the `dc:creator` value (lines 159-163): a lone string
is wrapped into a one-element list, a Bag/Seq list is used as is, a dict is
iterated (which yields its keys), then falsy entries are dropped.
`filter` over a bare `None` raises `TypeError`. -/
def creatorNormalize : XmpValue → Except PyErr (List Str)
  | .text none => .error .typeError
  | .text (some s) => .ok (truthyList [some s])
  | .list xs => .ok (truthyList xs)
  | .alt m => .ok (truthyList (m.map Prod.fst))

/-- Collapse of the normalized creator list (lines 164-169): two or more
entries give `"<last name of first> <last name of last>"`, one entry gives
its last name, an empty list gives `None`. `_au_last_name` on a token-free
entry raises `IndexError`. -/
def creatorCollapse (a : List Str) : Except PyErr (Option Str) :=
  match a with
  | [] => .ok none
  | [x] =>
    match _au_last_name x with
    | none => .error .indexError
    | some t => .ok (some t)
  | x :: y :: rest =>
    match _au_last_name x, _au_last_name ((y :: rest).getLast (List.cons_ne_nil y rest)) with
    | some t1, some t2 => .ok (some (t1 ++ ' ' :: t2))
    | _, _ => .error .indexError

/-- Title extraction from the parsed XMP metadata (lines 141-152):
`md["dc"]["title"]["x-default"]`, with `TypeError` falling back to a plain
string value and `KeyError` leaving the title unset. -/
def titleFromXmp (md : XmpMeta) : Option Str :=
  match dictGet md (some ("dc").data) with
  | none => none
  | some tags =>
    match dictGet tags ("title").data with
    | none => none
    | some v =>
      match v with
      | .alt m =>
        match dictGet m (some ("x-default").data) with
        | none => none
        | some t => t
      | .text t => t
      | .list _ => none

/-- Author extraction from the parsed XMP metadata (lines 154-169):
`md["dc"]["creator"]` normalized and collapsed; `KeyError` leaves the
author unset. -/
def authorFromXmp (md : XmpMeta) : Except PyErr (Option Str) :=
  match dictGet md (some ("dc").data) with
  | none => .ok none
  | some tags =>
    match dictGet tags ("creator").data with
    | none => .ok none
    | some v => do
      let a ← creatorNormalize v
      creatorCollapse a

/-- Source `_get_xmp_metadata` (lines 133-171): any exception from
`xmp_to_dict` is swallowed by the bare `except`, returning both fields
unset; otherwise titles and authors are read from the dictionary. -/
def _get_xmp_metadata (x : Xml) : Except PyErr (Option Str × Option Str) :=
  match xmp_to_dict x with
  | .error _ => .ok (none, none)
  | .ok md => do
    let t := titleFromXmp md
    let a ← authorFromXmp md
    Except.ok (t, a)

/-- A PDF document-info dictionary. -/
abbrev InfoDict := List (Str × PdfObj)

/-- The document object the external PDF parser yields: the `info`
attribute (a list of info dictionaries; `none` models a missing attribute)
and the catalog's optional `Metadata` stream, carried as the `ET.XML`
outcome of its data. -/
structure PdfDoc where
  info : Option (List InfoDict)
  metadata : Option Xml

/-- Outcome of `PDFDocument(PDFParser(f))`: a document, or the
`PDFSyntaxError` signal for a file the parser rejects. -/
inductive ParseOutcome where
  | malformedDocument
  | ok (doc : PdfDoc)

/-- Dynamic result type of `_get_metadata`: the literal empty dict `\x7b\x7d`
or the document object. -/
inductive MetadataResult where
  | emptyDict
  | doc (d : PdfDoc)

/-- Source `_get_metadata` (lines 113-123): an empty dict for a
`PDFSyntaxError`, a missing `info` attribute, or an empty `info` list;
otherwise the document itself. -/
def _get_metadata (p : ParseOutcome) : MetadataResult :=
  match p with
  | .malformedDocument => .emptyDict
  | .ok d =>
    match d.info with
    | none => .emptyDict
    | some l => if l.length = 0 then .emptyDict else .doc d

/-- Baseline title from the info dictionary (lines 179-186): resolve one
level of indirection and decode as UTF-8; `AttributeError` passes silently,
`UnicodeDecodeError` prints a diagnostic; both leave the title unset. -/
def titleFromInfo (info : InfoDict) : Option Str :=
  match dictGet info ("Title").data with
  | none => none
  | some v =>
    match pyDecodeUtf8 (_resolve_objref v) with
    | .ok s => some s
    | .error _ => none

/-- Baseline author from the info dictionary (lines 188-195), identical to
the title procedure. -/
def authorFromInfo (info : InfoDict) : Option Str :=
  match dictGet info ("Author").data with
  | none => none
  | some v =>
    match pyDecodeUtf8 (_resolve_objref v) with
    | .ok s => some s
    | .error _ => none

/-- Final title cleanup (lines 206-209): strip surrounding whitespace and
clear a title that case-insensitively equals "untitled". -/
def cleanupTitle : Option Str → Option Str
  | none => none
  | some t =>
    let t := pyStrip t
    if pyLower t == ("untitled").data then none else some t

/-- Source `_get_info` (lines 173-214): the metadata-extraction chain for
one file. `doc.info[0]` is evaluated on whatever `_get_metadata` returned,
so the empty-dict failure signal raises `AttributeError` here. XMP values,
when truthy, override the baseline fields; `_resolve_objref` applied to
them is the identity since plain strings have no `resolve` attribute. -/
def _get_info (p : ParseOutcome) : Except PyErr (Option Str × Option Str) := do
  let d ← match _get_metadata p with
    | .emptyDict => Except.error .attributeError
    | .doc d => Except.ok d
  let info ← match d.info with
    | none => Except.error .attributeError
    | some [] => Except.error .indexError
    | some (i :: _) => Except.ok i
  let title := titleFromInfo info
  let author := authorFromInfo info
  let (title, author) ←
    match d.metadata with
    | none => Except.ok (title, author)
    | some x => do
      let (xmpt, xmpa) ← _get_xmp_metadata x
      Except.ok ((if pyTruthy xmpt then xmpt else title),
                 (if pyTruthy xmpa then xmpa else author))
  Except.ok (cleanupTitle title, author)

/-- The author collapse as the spec describes it, written over the retained
entry list: no entry leaves the author unset, one entry contributes its last
whitespace-delimited token, two or more contribute the last tokens of the
first and of the last entry. Stated with defaults so it is total; the claims
compare it with `creatorCollapse` under the precondition that every retained
entry has a last token. -/
def specCollapse (a : List Str) : Option Str :=
  match a with
  | [] => none
  | [x] => (pySplitWs x).getLast?
  | x :: y :: rest =>
    some ((pySplitWs x).getLastD [] ++
      ' ' :: (pySplitWs ((y :: rest).getLast (List.cons_ne_nil y rest))).getLastD [])

/-- The document-info dictionary of the spec's walk-through scenario:
byte-string Title "Quantum Foo" and Author "A. Smith". -/
def infoQuantum : InfoDict :=
  [(("Title").data, PdfObj.bytes (asciiBytes ("Quantum Foo"))),
   (("Author").data, PdfObj.bytes (asciiBytes ("A. Smith")))]

/-! Helper lemmas. -/

theorem pyLowerChar_not_upper (c : Char) : (pyLowerChar c).isUpper = false := by
  unfold pyLowerChar
  by_cases h : c.isUpper = true
  · simp only [h, if_true]
    simp only [Char.isUpper, Bool.and_eq_true, decide_eq_true_eq] at h
    obtain ⟨h1, h2⟩ := h
    have h1' : 65 ≤ c.toNat := h1
    have h2' : c.toNat ≤ 90 := h2
    set t := c.toNat with ht
    interval_cases t <;> decide
  · simp only [Bool.not_eq_true] at h
    simp [h]

theorem pyLowerChar_ne_colon (c : Char) (hc : c ≠ ':') : pyLowerChar c ≠ ':' := by
  unfold pyLowerChar
  by_cases h : c.isUpper = true
  · simp only [h, if_true]
    simp only [Char.isUpper, Bool.and_eq_true, decide_eq_true_eq] at h
    obtain ⟨h1, h2⟩ := h
    have h1' : 65 ≤ c.toNat := h1
    have h2' : c.toNat ≤ 90 := h2
    set t := c.toNat with ht
    interval_cases t <;> decide
  · simp only [Bool.not_eq_true] at h
    simp [h, hc]

theorem mem_pyStrip {c : Char} {s : Str} (h : c ∈ pyStrip s) : c ∈ s := by
  unfold pyStrip at h
  rw [List.mem_reverse] at h
  have h1 : c ∈ (s.dropWhile pyIsSpace).reverse :=
    List.Sublist.mem h (List.dropWhile_sublist _)
  rw [List.mem_reverse] at h1
  exact List.Sublist.mem h1 (List.dropWhile_sublist _)

theorem mem_joinWith {c : Char} {sep : Str} :
    ∀ {parts : List Str}, c ∈ joinWith sep parts → c ∈ sep ∨ ∃ p ∈ parts, c ∈ p := by
  intro parts
  induction parts with
  | nil => intro h; simp [joinWith] at h
  | cons s rest ih =>
    cases rest with
    | nil =>
      intro h
      simp only [joinWith] at h
      exact Or.inr ⟨s, by simp, h⟩
    | cons s2 rest2 =>
      intro h
      simp only [joinWith, List.append_assoc, List.mem_append] at h
      rcases h with h | h | h
      · exact Or.inr ⟨s, by simp, h⟩
      · exact Or.inl h
      · rcases ih h with h | ⟨p, hp, hc⟩
        · exact Or.inl h
        · exact Or.inr ⟨p, List.mem_cons_of_mem _ hp, hc⟩

theorem mem_pySplitChar {sep c : Char} :
    ∀ {s p : Str}, p ∈ pySplitChar sep s → c ∈ p → c ∈ s := by
  intro s
  induction s with
  | nil =>
    intro p hp hc
    simp only [pySplitChar, List.mem_singleton] at hp
    subst hp
    simp at hc
  | cons a rest ih =>
    intro p hp hc
    rw [pySplitChar] at hp
    cases hr : pySplitChar sep rest with
    | nil =>
      rw [hr] at hp
      dsimp only at hp
      simp only [List.mem_singleton] at hp
      subst hp
      rcases List.mem_singleton.mp hc with rfl
      exact List.mem_cons_self _ _
    | cons q qs =>
      rw [hr] at hp
      dsimp only at hp
      by_cases ha : a = sep
      · rw [if_pos ha] at hp
        rcases List.mem_cons.mp hp with rfl | hp2
        · simp at hc
        · have : p ∈ pySplitChar sep rest := by rw [hr]; exact hp2
          exact List.mem_cons_of_mem _ (ih this hc)
      · rw [if_neg ha] at hp
        rcases List.mem_cons.mp hp with rfl | hp2
        · rcases List.mem_cons.mp hc with rfl | hc2
          · exact List.mem_cons_self _ _
          · have hq : q ∈ pySplitChar sep rest := by rw [hr]; exact List.mem_cons_self q qs
            exact List.mem_cons_of_mem _ (ih hq hc2)
        · have : p ∈ pySplitChar sep rest := by rw [hr]; exact List.mem_cons_of_mem _ hp2
          exact List.mem_cons_of_mem _ (ih this hc)

/-- C1: the source evaluates `doc.info[0]` on whatever `_get_metadata`
returned; at the failing inputs (parse failure, missing or empty info list)
that value is the empty dict, so the chain raises `AttributeError` instead
of returning an unset pair. -/
theorem c1_no_metadata_raises :
    _get_info ParseOutcome.malformedDocument = Except.error PyErr.attributeError ∧
    _get_info (ParseOutcome.ok ⟨none, none⟩) = Except.error PyErr.attributeError ∧
    _get_info (ParseOutcome.ok ⟨some [], none⟩) = Except.error PyErr.attributeError :=
  ⟨rfl, rfl, rfl⟩

/-- C2, counterexample: for the scenario's info dictionary the resolved
author is the full decoded string "A. Smith", not the surname "Smith"
claimed by the spec. -/
theorem c2_counterexample :
    _get_info (ParseOutcome.ok ⟨some [infoQuantum], none⟩)
        = Except.ok (some (("Quantum Foo").data), some (("A. Smith").data)) ∧
      (some (("A. Smith").data) : Option Str) ≠ some (("Smith").data) :=
  ⟨rfl, by decide⟩

/-- C2, amended: the baseline author is never collapsed to a surname, so the
scenario resolves to ("Quantum Foo", "A. Smith") and author-mode synthesis
yields "a. smith.quantum-foo.pdf". -/
theorem c2_amended_scenario :
    _get_info (ParseOutcome.ok ⟨some [infoQuantum], none⟩)
        = Except.ok (some (("Quantum Foo").data), some (("A. Smith").data)) ∧
      _new_filename (("Quantum Foo").data) (some (("A. Smith").data))
        = ("a. smith.quantum-foo.pdf").data :=
  ⟨rfl, rfl⟩

/-- C3, counterexample: with an author, `_new_filename` keeps the whole
sanitized author, producing "jane doe.hello-world.pdf" rather than the
claimed "doe.hello-world.pdf". -/
theorem c3_counterexample :
    _new_filename (("Hello World").data) (some (("Jane Doe").data))
        = ("jane doe.hello-world.pdf").data ∧
      ("jane doe.hello-world.pdf").data ≠ ("doe.hello-world.pdf").data :=
  ⟨rfl, by decide⟩

/-- C3, amended: `_new_filename` on "Hello World" without author gives
"hello-world.pdf", and with author "Jane Doe" gives
"jane doe.hello-world.pdf" (no surname extraction in the synthesizer). -/
theorem c3_amended_examples :
    _new_filename (("Hello World").data) none = ("hello-world.pdf").data ∧
      _new_filename (("Hello World").data) (some (("Jane Doe").data))
        = ("jane doe.hello-world.pdf").data :=
  ⟨rfl, rfl⟩

/-- C7: for any title of length at most 10,000 and any optional author, the
synthesized filename ends in ".pdf" and is at most 254 characters long. -/
theorem c7_filename_bounded (title : Str) (author : Option Str)
    (h : title.length ≤ 10000) :
    ['.', 'p', 'd', 'f'] <:+ _new_filename title author ∧
      (_new_filename title author).length ≤ 254 := by
  constructor
  · exact ⟨_, rfl⟩
  · simp only [_new_filename, List.length_append, List.length_take,
      List.length_cons, List.length_nil]
    omega

/-- Witness for C7 at the title "Hello World" with no author. -/
theorem c7_filename_bounded_witness :
    ['.', 'p', 'd', 'f'] <:+ _new_filename (("Hello World").data) none ∧
      (_new_filename (("Hello World").data) none).length ≤ 254 :=
  c7_filename_bounded (("Hello World").data) none (by decide)

theorem dictGet_mem_values {κ ν : Type} [BEq κ] :
    ∀ (d : List (κ × ν)) (k : κ) (v : ν), dictGet d k = some v → v ∈ d.map Prod.snd
  | [], _, _, h => by simp [dictGet] at h
  | p :: rest, k, v, h => by
    rw [dictGet, List.find?] at h
    cases hc : p.1 == k with
    | true =>
      rw [hc] at h
      simp only [Option.map_some'] at h
      rw [Option.some.injEq] at h
      subst h
      exact List.mem_cons_self _ _
    | false =>
      rw [hc] at h
      exact List.mem_cons_of_mem _ (dictGet_mem_values rest k v h)

theorem creatorCollapse_ok :
    ∀ (a : List Str), (∀ s ∈ a, pySplitWs s ≠ []) →
      creatorCollapse a = Except.ok (specCollapse a)
  | [], _ => rfl
  | [x], h => by
    have hx : pySplitWs x ≠ [] := h x (List.mem_singleton.mpr rfl)
    simp only [creatorCollapse, specCollapse, _au_last_name]
    cases hgl : (pySplitWs x).getLast? with
    | none => exact absurd (List.getLast?_eq_none_iff.mp hgl) hx
    | some t => rfl
  | x :: y :: rest, h => by
    have hx : pySplitWs x ≠ [] := h x (by simp)
    have hlast : pySplitWs ((y :: rest).getLast (List.cons_ne_nil y rest)) ≠ [] :=
      h _ (List.mem_cons_of_mem x (List.getLast_mem (List.cons_ne_nil y rest)))
    simp only [creatorCollapse, specCollapse, _au_last_name]
    cases hgl1 : (pySplitWs x).getLast? with
    | none => exact absurd (List.getLast?_eq_none_iff.mp hgl1) hx
    | some t1 =>
      cases hgl2 : (pySplitWs ((y :: rest).getLast (List.cons_ne_nil y rest))).getLast? with
      | none => exact absurd (List.getLast?_eq_none_iff.mp hgl2) hlast
      | some t2 => simp [List.getLastD_eq_getLast?, hgl1, hgl2]

/-- C6, counterexample: the creator value `[" "]` keeps its single
whitespace-only entry after the falsy filter (one entry remains), yet the
collapse raises `IndexError` instead of producing that entry's last
whitespace-delimited token. -/
theorem c6_counterexample :
    creatorNormalize (XmpValue.list [some [' ']]) = Except.ok [[' ']] ∧
      (creatorNormalize (XmpValue.list [some [' ']]) >>= creatorCollapse)
        = Except.error PyErr.indexError :=
  ⟨rfl, rfl⟩

/-- C6, amended: for every creator value that normalizes to a list of
retained entries each containing a non-whitespace character, the collapsed
author is: unset for zero entries, the single entry's last
whitespace-delimited token for one entry, and the last tokens of the first
and last entries joined by a space for two or more. -/
theorem c6_amended_collapse (v : XmpValue) (a : List Str)
    (h1 : creatorNormalize v = Except.ok a) (h2 : ∀ s ∈ a, pySplitWs s ≠ []) :
    (creatorNormalize v >>= creatorCollapse) = Except.ok (specCollapse a) := by
  rw [h1]
  exact creatorCollapse_ok a h2

/-- Witness for C6 at a two-author creator list. -/
theorem c6_amended_collapse_witness :
    (creatorNormalize (XmpValue.list [some (("Jane Doe").data), some (("John Q Smith").data)])
        >>= creatorCollapse) = Except.ok (some (("Doe Smith").data)) :=
  c6_amended_collapse
    (XmpValue.list [some (("Jane Doe").data), some (("John Q Smith").data)])
    [("Jane Doe").data, ("John Q Smith").data] rfl (by decide)

/-- C10: the collapse is total exactly under the precondition that every
retained entry has a non-whitespace character; a whitespace-only entry is
truthy, survives the filter, and makes the last-token extraction raise
`IndexError` instead of being treated as absent. -/
theorem c10_collapse_totality :
    (∀ (v : XmpValue) (a : List Str), creatorNormalize v = Except.ok a →
        (∀ s ∈ a, pySplitWs s ≠ []) →
        ∃ r, (creatorNormalize v >>= creatorCollapse) = Except.ok r) ∧
      truthyList [some [' ']] = [[' ']] ∧
      (creatorNormalize (XmpValue.list [some [' ']]) >>= creatorCollapse)
        = Except.error PyErr.indexError := by
  refine ⟨fun v a h1 h2 => ⟨specCollapse a, ?_⟩, rfl, rfl⟩
  rw [h1]
  exact creatorCollapse_ok a h2

/-- Witness for C10 at a single well-formed creator entry. -/
theorem c10_collapse_totality_witness :
    ∃ r, (creatorNormalize (XmpValue.list [some (("A B").data)]) >>= creatorCollapse)
      = Except.ok r :=
  c10_collapse_totality.1 (XmpValue.list [some (("A B").data)]) [("A B").data]
    rfl (by decide)

/-- C8, counterexample: a Description child in the RDF namespace is stored
under the tenth alias "rdf", which is not among the nine aliases the claim
lists and is not the full namespace URI either. -/
theorem c8_counterexample :
    _parse_tag (qualTag rdfURI (("RDF").data))
        = Except.ok (some (("rdf").data), ("RDF").data) ∧
      ("rdf").data ∉ [("dc").data, ("xap").data, ("pdf").data, ("xapmm").data,
        ("pdfx").data, ("prism").data, ("crossmark").data, ("rights").data,
        ("xml").data] ∧
      ("rdf").data ≠ rdfURI :=
  ⟨rfl, by decide, by decide⟩

/-- C8, amended: whenever `_parse_tag` succeeds on an element's tag, the
namespace key is determined by that tag: it is `None` exactly when the tag
does not start with a namespace brace (the whole tag then being the local
name); otherwise, for the URI that the tag delimits with its first closing
brace, the key is that URI's alias in the ten-entry `NS_MAP` (the claim's
nine plus "rdf") when the URI is recognized, and that full URI itself
otherwise. -/
theorem c8_amended_ns_keys (t : Str) (ns : Option Str) (loc : Str)
    (h : _parse_tag t = Except.ok (ns, loc)) :
    (ns = none ∧ loc = t ∧ ∀ rs : Str, t ≠ '\x7b' :: rs) ∨
      ∃ rs uri, t = '\x7b' :: rs ∧ splitOnceAt '\x7d' rs = some (uri, loc) ∧
        ((∃ al, dictGet NS_MAP uri = some al ∧ al ∈ NS_MAP.map Prod.snd ∧ ns = some al) ∨
          (dictGet NS_MAP uri = none ∧ ns = some uri)) := by
  match t with
  | [] => simp [_parse_tag] at h
  | c :: rest =>
    rw [_parse_tag] at h
    by_cases hc : c = '\x7b'
    · rw [if_pos hc] at h
      cases hsp : splitOnceAt '\x7d' rest with
      | none => rw [hsp] at h; exact absurd h (by simp)
      | some pr =>
        rw [hsp] at h
        obtain ⟨uri, l2⟩ := pr
        dsimp only at h
        simp only [Except.ok.injEq, Prod.mk.injEq] at h
        obtain ⟨h1, h2⟩ := h
        subst hc
        subst h2
        refine Or.inr ⟨rest, uri, rfl, hsp, ?_⟩
        cases hg : dictGet NS_MAP uri with
        | none =>
          refine Or.inr ⟨rfl, ?_⟩
          rw [← h1, hg]
          rfl
        | some al =>
          refine Or.inl ⟨al, rfl, dictGet_mem_values _ _ _ hg, ?_⟩
          rw [← h1, hg]
          rfl
    · rw [if_neg hc] at h
      simp only [Except.ok.injEq, Prod.mk.injEq] at h
      refine Or.inl ⟨h.1.symm, h.2.symm, ?_⟩
      intro rs he
      injection he with h3 h4
      exact hc h3

/-- Witness for C8 at a Dublin Core qualified tag, whose key is the alias
"dc". -/
theorem c8_amended_ns_keys_witness :
    ((some (("dc").data) : Option Str) = none ∧
        ("title").data = qualTag (("http://purl.org/dc/elements/1.1/").data) (("title").data) ∧
        ∀ rs : Str,
          qualTag (("http://purl.org/dc/elements/1.1/").data) (("title").data) ≠ '\x7b' :: rs) ∨
      ∃ rs uri,
        qualTag (("http://purl.org/dc/elements/1.1/").data) (("title").data) = '\x7b' :: rs ∧
        splitOnceAt '\x7d' rs = some (uri, ("title").data) ∧
        ((∃ al, dictGet NS_MAP uri = some al ∧ al ∈ NS_MAP.map Prod.snd ∧
            (some (("dc").data) : Option Str) = some al) ∨
          (dictGet NS_MAP uri = none ∧ (some (("dc").data) : Option Str) = some uri)) :=
  c8_amended_ns_keys (qualTag (("http://purl.org/dc/elements/1.1/").data) (("title").data))
    (some (("dc").data)) (("title").data) rfl

/-- C9: a Title or Author value that resolves to a text string (rather
than a byte string) leaves the baseline field unset, and a populated
baseline field always comes from a byte-string value that decoded as
UTF-8. -/
theorem c9_baseline_requires_bytes :
    (∀ (info : InfoDict) (v : PdfObj) (s : Str),
        dictGet info (("Title").data) = some v → _resolve_objref v = PdfObj.str s →
        titleFromInfo info = none) ∧
      (∀ (info : InfoDict) (v : PdfObj) (s : Str),
        dictGet info (("Author").data) = some v → _resolve_objref v = PdfObj.str s →
        authorFromInfo info = none) ∧
      (∀ (info : InfoDict) (t : Str), titleFromInfo info = some t →
        ∃ v bs, dictGet info (("Title").data) = some v ∧
          _resolve_objref v = PdfObj.bytes bs ∧ utf8Decode bs = some t) ∧
      ∀ (info : InfoDict) (a : Str), authorFromInfo info = some a →
        ∃ v bs, dictGet info (("Author").data) = some v ∧
          _resolve_objref v = PdfObj.bytes bs ∧ utf8Decode bs = some a := by
  refine ⟨?_, ?_, ?_, ?_⟩
  · intro info v s h1 h2
    simp [titleFromInfo, h1, h2, pyDecodeUtf8]
  · intro info v s h1 h2
    simp [authorFromInfo, h1, h2, pyDecodeUtf8]
  · intro info t h
    unfold titleFromInfo at h
    cases hd : dictGet info (("Title").data) with
    | none => rw [hd] at h; simp at h
    | some v =>
      rw [hd] at h
      dsimp only at h
      cases hr : _resolve_objref v with
      | str s => rw [hr] at h; simp [pyDecodeUtf8] at h
      | ref o => rw [hr] at h; simp [pyDecodeUtf8] at h
      | bytes bs =>
        rw [hr] at h
        dsimp only [pyDecodeUtf8] at h
        cases hu : utf8Decode bs with
        | none => rw [hu] at h; simp at h
        | some s =>
          rw [hu] at h
          simp only [Option.some.injEq] at h
          exact ⟨v, bs, rfl, hr, by rw [hu, h]⟩
  · intro info a h
    unfold authorFromInfo at h
    cases hd : dictGet info (("Author").data) with
    | none => rw [hd] at h; simp at h
    | some v =>
      rw [hd] at h
      dsimp only at h
      cases hr : _resolve_objref v with
      | str s => rw [hr] at h; simp [pyDecodeUtf8] at h
      | ref o => rw [hr] at h; simp [pyDecodeUtf8] at h
      | bytes bs =>
        rw [hr] at h
        dsimp only [pyDecodeUtf8] at h
        cases hu : utf8Decode bs with
        | none => rw [hu] at h; simp at h
        | some s =>
          rw [hu] at h
          simp only [Option.some.injEq] at h
          exact ⟨v, bs, rfl, hr, by rw [hu, h]⟩

/-- Witness for C9: a text-string Title leaves the baseline title unset. -/
theorem c9_baseline_requires_bytes_witness :
    titleFromInfo [(("Title").data, PdfObj.str (("X").data))] = none :=
  c9_baseline_requires_bytes.1 _ (PdfObj.str (("X").data)) (("X").data) rfl rfl

/-- C5: when the packet behind the catalog's Metadata entry fails to parse
(malformed XML or missing RDF structure, i.e. `xmp_to_dict` errors), the
extraction chain neither raises nor changes anything: its result is the
same as for the identical document without a Metadata entry, namely the
document-info baseline values. -/
theorem c5_malformed_xmp_falls_back (i : InfoDict) (rest : List InfoDict)
    (x : Xml) (e : PyErr) (hx : xmp_to_dict x = Except.error e) :
    _get_info (ParseOutcome.ok ⟨some (i :: rest), some x⟩)
        = _get_info (ParseOutcome.ok ⟨some (i :: rest), none⟩) ∧
      _get_info (ParseOutcome.ok ⟨some (i :: rest), some x⟩)
        = Except.ok (cleanupTitle (titleFromInfo i), authorFromInfo i) := by
  have hm : _get_xmp_metadata x = Except.ok (none, none) := by
    unfold _get_xmp_metadata
    rw [hx]
  have step : _get_info (ParseOutcome.ok ⟨some (i :: rest), some x⟩)
      = Except.bind (_get_xmp_metadata x) (fun p =>
          Except.ok (cleanupTitle (if pyTruthy p.1 then p.1 else titleFromInfo i),
            if pyTruthy p.2 then p.2 else authorFromInfo i)) := rfl
  have h2 : _get_info (ParseOutcome.ok ⟨some (i :: rest), some x⟩)
      = Except.ok (cleanupTitle (titleFromInfo i), authorFromInfo i) := by
    rw [step, hm]
    rfl
  exact ⟨h2.trans rfl, h2⟩

/-- Witness for C5 at a concrete info dictionary and a malformed packet. -/
theorem c5_malformed_xmp_falls_back_witness :
    _get_info (ParseOutcome.ok
          ⟨some [[(("Title").data, PdfObj.bytes (asciiBytes ("T")))]], some Xml.malformed⟩)
        = _get_info (ParseOutcome.ok
          ⟨some [[(("Title").data, PdfObj.bytes (asciiBytes ("T")))]], none⟩) ∧
      _get_info (ParseOutcome.ok
          ⟨some [[(("Title").data, PdfObj.bytes (asciiBytes ("T")))]], some Xml.malformed⟩)
        = Except.ok
            (cleanupTitle (titleFromInfo [(("Title").data, PdfObj.bytes (asciiBytes ("T")))]),
              authorFromInfo [(("Title").data, PdfObj.bytes (asciiBytes ("T")))]) :=
  c5_malformed_xmp_falls_back [(("Title").data, PdfObj.bytes (asciiBytes ("T")))] []
    Xml.malformed PyErr.valueError rfl

theorem sanitize_chars {s : Str} {c : Char} (h : c ∈ _sanitize s) :
    (keepChars.contains c || c.isAlphanum) = true := by
  unfold _sanitize at h
  exact (List.mem_filter.mp (mem_pyStrip h)).2

theorem titleSegment_chars {title : Str} {c : Char}
    (h : c ∈ joinWith ['-'] (pySplitChar ' ' (pyStrip (pyRemoveColon (pyLower title))))) :
    c.isUpper = false ∧ c ≠ ':' := by
  rcases mem_joinWith h with hs | ⟨p, hp, hc⟩
  · rcases List.mem_singleton.mp hs with rfl
    exact ⟨by decide, by decide⟩
  · have h2 : c ∈ pyStrip (pyRemoveColon (pyLower title)) := mem_pySplitChar hp hc
    have h3 : c ∈ pyRemoveColon (pyLower title) := mem_pyStrip h2
    unfold pyRemoveColon at h3
    obtain ⟨h4, h5⟩ := List.mem_filter.mp h3
    have h6 : c ≠ ':' := of_decide_eq_true h5
    unfold pyLower at h4
    obtain ⟨y, _, hy⟩ := List.mem_map.mp h4
    exact ⟨hy ▸ pyLowerChar_not_upper y, h6⟩

theorem authorSegment_chars {a : Str} {c : Char}
    (h : c ∈ pyLower (_sanitize (pyLower a))) : c.isUpper = false ∧ c ≠ ':' := by
  obtain ⟨y, hy, hxy⟩ := List.mem_map.mp h
  have hkeep := sanitize_chars hy
  have hy' : y ≠ ':' := by
    intro he
    rw [he] at hkeep
    exact absurd hkeep (by decide)
  exact ⟨hxy ▸ pyLowerChar_not_upper y, hxy ▸ pyLowerChar_ne_colon y hy'⟩

theorem pyLowerChar_allowed (y : Char)
    (h : (keepChars.contains y || y.isAlphanum) = true) :
    (keepChars.contains (pyLowerChar y) || (pyLowerChar y).isAlphanum) = true := by
  unfold pyLowerChar
  by_cases hu : y.isUpper = true
  · simp only [hu, if_true]
    simp only [Char.isUpper, Bool.and_eq_true, decide_eq_true_eq] at hu
    obtain ⟨h1, h2⟩ := hu
    have h1' : 65 ≤ y.toNat := h1
    have h2' : y.toNat ≤ 90 := h2
    set t := y.toNat with ht
    interval_cases t <;> decide
  · simp only [Bool.not_eq_true] at hu
    simp only [hu, if_false]
    exact h

theorem authorSegment_allowed {a : Str} {c : Char}
    (h : c ∈ pyLower (_sanitize (pyLower a))) :
    (keepChars.contains c || c.isAlphanum) = true := by
  obtain ⟨y, hy, hxy⟩ := List.mem_map.mp h
  exact hxy ▸ pyLowerChar_allowed y (sanitize_chars hy)

/-- C4, counterexample: the slash in the title "a/b" survives into the
filename, although it is neither alphanumeric nor in the sanitizer's keep
set — only the author segment is sanitized. -/
theorem c4_counterexample :
    '/' ∈ _new_filename ['a', '/', 'b'] none ∧
      keepChars.contains '/' = false ∧ ('/').isAlphanum = false := by
  refine ⟨?_, rfl, rfl⟩
  decide

/-- C4, amended: the synthesized filename always ends in ".pdf", contains
no uppercase ASCII letter and no colon; the author segment — the lowercased
sanitized author that prefixes the dash-joined title in the filename, as
the stated decomposition shows — contains only alphanumerics, space, '.',
'_', '-' and the em-dash; but characters from the title other than colons
survive unsanitized, so the claimed restriction does not hold for the
title segment. -/
theorem c4_amended_chars (title : Str) (author : Option Str) :
    (['.', 'p', 'd', 'f'] <:+ _new_filename title author) ∧
      (∀ c ∈ _new_filename title author, c.isUpper = false ∧ c ≠ ':') ∧
      ∀ a, author = some a →
        (∀ c ∈ pyLower (_sanitize (pyLower a)),
            (keepChars.contains c || c.isAlphanum) = true) ∧
        _new_filename title (some a)
          = (pyLower (_sanitize (pyLower a)) ++ '.' ::
              joinWith ['-'] (pySplitChar ' ' (pyStrip (pyRemoveColon (pyLower title))))).take 250
            ++ ['.', 'p', 'd', 'f'] := by
  refine ⟨⟨_, rfl⟩, ?_, ?_⟩
  · intro c hc
    simp only [_new_filename] at hc
    rw [List.mem_append] at hc
    rcases hc with hc | hc
    · have hc2 := List.mem_of_mem_take hc
      cases author with
      | none => exact titleSegment_chars hc2
      | some a =>
        dsimp only at hc2
        rcases List.mem_append.mp hc2 with h | h
        · exact authorSegment_chars h
        · rcases List.mem_cons.mp h with rfl | h2
          · exact ⟨by decide, by decide⟩
          · exact titleSegment_chars h2
    · fin_cases hc <;> exact ⟨by decide, by decide⟩
  · intro a ha
    subst ha
    exact ⟨fun c hc => authorSegment_allowed hc, rfl⟩

/-- Witness for C4 with the membership and author hypotheses discharged at
a concrete character, author and filename. -/
theorem c4_amended_chars_witness :
    (keepChars.contains ' ' || (' ').isAlphanum) = true ∧
      ('a').isUpper = false ∧ 'a' ≠ ':' :=
  ⟨((c4_amended_chars (("Ab C").data) (some (("J D").data))).2.2 (("J D").data) rfl).1
      ' ' (by decide),
    (c4_amended_chars (("Ab C").data) (some (("J D").data))).2.1 'a' (by decide)⟩

end PdfRename
